import Mathlib

/-!
# Verification of the appointment-scheduling core

Shallow embedding of the scheduling logic of the repository:
`src/services/appointmentService.ts` (day / range filters, enrichment,
sorting, overlap grouping) and `src/components/DayView.tsx` (slot
generation, slot membership, duration-proportional sizing).

JavaScript `Date` values constructed by the code always carry zero
seconds and milliseconds (`setHours(h, m, 0, 0)`, minute-granular mock
timestamps), so timestamps are embedded at minute granularity.  A
`DateTime` keeps the calendar fields exactly as the JS accessors expose
them (`getFullYear`, 0-based `getMonth`, 1-based `getDate`, `getHours`,
`getMinutes`); `DateTime.epochMin` is the proleptic-Gregorian minute
count that models `getTime() / 60000`, so `Date` relational comparisons
become `Nat` comparisons of `epochMin`.
-/

namespace Sched

/-- Calendar timestamp at minute granularity. `month` is 0-based and
`day` 1-based, matching `getMonth()` / `getDate()` in the source. -/
structure DateTime where
  year : Nat
  month : Nat
  day : Nat
  hour : Nat
  minute : Nat
  deriving DecidableEq, Repr

/-- Gregorian leap-year test. -/
def isLeapYear (y : Nat) : Bool :=
  (y % 4 == 0 && y % 100 != 0) || y % 400 == 0

/-- Days in the months strictly before 0-based month `m` of a year. -/
def daysBeforeMonth (m : Nat) (leap : Bool) : Nat :=
  let base := [0, 31, 59, 90, 120, 151, 181, 212, 243, 273, 304, 334].getD m 365
  if leap && decide (2 ≤ m) then base + 1 else base

/-- Days in the proleptic Gregorian calendar strictly before January 1 of
year `y` (counted from year 1). -/
def daysBeforeYear (y : Nat) : Nat :=
  365 * (y - 1) + (y - 1) / 4 - (y - 1) / 100 + (y - 1) / 400

/-- Minute count modelling JS `getTime() / 60000` (up to the constant
epoch offset, which cancels in every comparison and difference the code
performs). -/
def DateTime.epochMin (t : DateTime) : Nat :=
  (daysBeforeYear t.year + daysBeforeMonth t.month (isLeapYear t.year) + (t.day - 1)) * 1440
    + t.hour * 60 + t.minute

/-- `isSameDay` from `appointmentService.ts`: equality of the
(`getFullYear`, `getMonth`, `getDate`) triples. -/
def isSameDay (a b : DateTime) : Bool :=
  a.year == b.year && a.month == b.month && a.day == b.day

/-- `startOfDay` from `appointmentService.ts`:
`new Date(getFullYear(), getMonth(), getDate())`, i.e. midnight of the
same calendar day. -/
def startOfDay (t : DateTime) : DateTime :=
  ⟨t.year, t.month, t.day, 0, 0⟩

/-- JS `d.setHours(h, m, 0, 0)` applied to a copy of `d` (the source
always copies the reference day first). -/
def setHours (t : DateTime) (h m : Nat) : DateTime :=
  { t with hour := h, minute := m }

/-- Working hours of one weekday, `{ start, end }` in "HH:MM" strings. -/
structure WorkingHours where
  start : String
  stop : String
  deriving DecidableEq, Repr

/-- Doctor entity from `src/types/index.ts`; `workingHours` maps weekday
names to hours. -/
structure Doctor where
  id : String
  name : String
  specialty : String
  email : String
  phone : String
  workingHours : List (String × WorkingHours)
  deriving DecidableEq, Repr

/-- Patient entity from `src/types/index.ts`. -/
structure Patient where
  id : String
  name : String
  email : String
  phone : String
  dateOfBirth : String
  deriving DecidableEq, Repr

/-- Appointment entity from `src/types/index.ts`; `startTime` / `endTime`
are the parsed ISO timestamps (`new Date(apt.startTime)` in the code is
the identity in this embedding). -/
structure Appointment where
  id : String
  patientId : String
  doctorId : String
  type : String
  startTime : DateTime
  endTime : DateTime
  notes : Option String
  status : String
  deriving DecidableEq, Repr

/-- `PopulatedAppointment extends Appointment` with resolved `doctor` and
`patient` records. -/
structure PopulatedAppointment extends Appointment where
  doctor : Doctor
  patient : Patient
  deriving DecidableEq, Repr

/-- A display slot: `start`, exclusive `end` (here `stop`, since `end` is
reserved in Lean) and a human-readable label. -/
structure TimeSlot where
  start : DateTime
  stop : DateTime
  label : String
  deriving DecidableEq, Repr

/-- Two-digit zero-padded minutes, as date-fns prints `mm`. -/
def pad2 (n : Nat) : String :=
  if n < 10 then "0" ++ toString n else toString n

/-- date-fns `format(t, "h:mm a")`: 12-hour clock with AM/PM. -/
def formatLabel (t : DateTime) : String :=
  let h12 := if t.hour % 12 == 0 then 12 else t.hour % 12
  toString h12 ++ ":" ++ pad2 t.minute ++ " " ++ (if t.hour < 12 then "AM" else "PM")

/-- One iteration of the `generateTimeSlots` loop body in `DayView.tsx`:
the two 30-minute slots of hour `h` (`h:00–h:30` and `h:30–(h+1):00`). -/
def slotsForHour (date : DateTime) (h : Nat) : List TimeSlot :=
  [ { start := setHours date h 0, stop := setHours date h 30,
      label := formatLabel (setHours date h 0) },
    { start := setHours date h 30, stop := setHours date (h + 1) 0,
      label := formatLabel (setHours date h 30) } ]

/-- The loop `for (hour = s; hour < e; hour++)` of `generateTimeSlots`,
unrolled as `n = e - s` iterations starting at hour `s`. -/
def windowSlots (date : DateTime) : Nat → Nat → List TimeSlot
  | _, 0 => []
  | s, n + 1 => slotsForHour date s ++ windowSlots date (s + 1) n

/-- `generateTimeSlots` with the hour window abstracted; the source fixes
`startHour = 8`, `endHour = 18` (and the 30-minute width is built into
the loop body). -/
def generateTimeSlotsWindow (date : DateTime) (startHour endHour : Nat) : List TimeSlot :=
  windowSlots date startHour (endHour - startHour)

/-- `generateTimeSlots` from `DayView.tsx`: 30-minute slots from 8 AM to
6 PM. -/
def generateTimeSlots (date : DateTime) : List TimeSlot :=
  generateTimeSlotsWindow date 8 18

/-- `getAppointmentsForSlot` from `DayView.tsx`:
`(isBefore(aptStart, slot.end) || isEqual(aptStart, slot.end)) &&
 (isAfter(aptEnd, slot.start) || isEqual(aptEnd, slot.start))`. -/
def getAppointmentsForSlot (slot : TimeSlot) (appointments : List PopulatedAppointment) :
    List PopulatedAppointment :=
  appointments.filter fun apt =>
    decide (apt.startTime.epochMin ≤ slot.stop.epochMin) &&
    decide (slot.start.epochMin ≤ apt.endTime.epochMin)

/-- `durationMinutes` in `AppointmentCard` (`DayView.tsx`):
`(end.getTime() - start.getTime()) / (1000 * 60)`, an exact rational
(here an integer of minutes, since the embedded timestamps are
minute-granular). -/
def durationMinutes (apt : PopulatedAppointment) : ℚ :=
  (apt.endTime.epochMin : ℚ) - (apt.startTime.epochMin : ℚ)

/-- The `height` computed by `AppointmentCard`:
`(durationMinutes / 30) * heightPer30Min` with `heightPer30Min = 40`. -/
def cardHeight (apt : PopulatedAppointment) : ℚ :=
  durationMinutes apt / 30 * 40

/-- `getAppointmentsByDoctorAndDate` from `appointmentService.ts`, with
the module-level `MOCK_APPOINTMENTS` store passed explicitly. -/
def getAppointmentsByDoctorAndDate (appointments : List Appointment)
    (doctorId : String) (date : DateTime) : List Appointment :=
  appointments.filter fun apt =>
    apt.doctorId == doctorId && isSameDay apt.startTime date

/-- `getAppointmentsByDoctorAndDateRange` from `appointmentService.ts`:
`aptDate >= startOfDay(startDate) && aptDate < startOfDay(endDate)` where
`aptDate = startOfDay(new Date(apt.startTime))` and `Date` comparison is
epoch-time comparison. -/
def getAppointmentsByDoctorAndDateRange (appointments : List Appointment)
    (doctorId : String) (startDate endDate : DateTime) : List Appointment :=
  appointments.filter fun apt =>
    apt.doctorId == doctorId &&
    decide ((startOfDay startDate).epochMin ≤ (startOfDay apt.startTime).epochMin) &&
    decide ((startOfDay apt.startTime).epochMin < (startOfDay endDate).epochMin)

/-- `getDoctorById`: `MOCK_DOCTORS.find((doc) => doc.id === id)`
(as in `AppointmentService.getDoctorById`). -/
def getDoctorById (doctors : List Doctor) (id : String) : Option Doctor :=
  doctors.find? fun d => d.id == id

/-- Modelled from the spec: `getPatientById` lives in `src/data/mockData`,
which is not part of the provided sources; §6 specifies
`resolvePatient(patientId) → Patient or absent`, an id lookup. -/
def getPatientById (patients : List Patient) (id : String) : Option Patient :=
  patients.find? fun p => p.id == id

/-- `getPopulatedAppointment` from `appointmentService.ts`: resolve both
references, return `null` (`none`) if either is missing, otherwise the
spread `{ ...appointment, doctor, patient }`. -/
def getPopulatedAppointment (doctors : List Doctor) (patients : List Patient)
    (appointment : Appointment) : Option PopulatedAppointment :=
  match getDoctorById doctors appointment.doctorId,
        getPatientById patients appointment.patientId with
  | some doctor, some patient =>
      some { toAppointment := appointment, doctor := doctor, patient := patient }
  | _, _ => none

/-- The comparator `(a, b) => new Date(a.startTime).getTime() - new
Date(b.startTime).getTime()` as the ordering it sorts by. -/
def startLE (a b : Appointment) : Prop :=
  a.startTime.epochMin ≤ b.startTime.epochMin

instance : DecidableRel startLE := fun _ _ => Nat.decLe _ _

instance : IsTotal Appointment startLE :=
  ⟨fun a b => Nat.le_total a.startTime.epochMin b.startTime.epochMin⟩

instance : IsTrans Appointment startLE :=
  ⟨fun _ _ _ h₁ h₂ => Nat.le_trans h₁ h₂⟩

/-- The spread `[...appointments]`: a fresh array built by appending the
elements of `appointments` in order. -/
def spreadCopy (l : List Appointment) : List Appointment :=
  l.foldl (fun acc a => acc ++ [a]) []

/-- `sortAppointmentsByTime` from `appointmentService.ts`: sort the
spread copy ascending by start time (`Array.prototype.sort` with a
numeric comparator is a stable ascending sort; modelled by stable
insertion sort). -/
def sortAppointmentsByTime (appointments : List Appointment) : List Appointment :=
  List.insertionSort startLE (spreadCopy appointments)

/-- State-passing view of one `sortAppointmentsByTime` call: the pair
(returned array, contents of the `appointments` array of the caller after the
call).  The receiver of the in-place `.sort` is the fresh array produced
by the spread, so the array of the caller still holds its entry contents. -/
def sortAppointmentsByTimeCall (appointments : List Appointment) :
    List Appointment × List Appointment :=
  (sortAppointmentsByTime appointments, appointments)

/-- The `sorted.forEach` loop of `getOverlappingAppointments`: `pending`
is the remaining input, `overlaps` the emitted groups, `current` the open
group.  An appointment joins `current` when the group is empty or its
start is strictly before the end of `currentGroup[currentGroup.length - 1]`,
the last appointment added; otherwise `current` is emitted and the
appointment starts a new group.  After the loop a non-empty `current` is
emitted. -/
def groupLoop : List Appointment → List (List Appointment) → List Appointment →
    List (List Appointment)
  | [], overlaps, current => if current.isEmpty then overlaps else overlaps ++ [current]
  | apt :: rest, overlaps, current =>
    match current.getLast? with
    | none => groupLoop rest overlaps [apt]
    | some lastApt =>
      if apt.startTime.epochMin < lastApt.endTime.epochMin then
        groupLoop rest overlaps (current ++ [apt])
      else
        groupLoop rest (overlaps ++ [current]) [apt]

/-- `getOverlappingAppointments` from `appointmentService.ts`: sort
internally, then run the single forward grouping pass. -/
def getOverlappingAppointments (appointments : List Appointment) :
    List (List Appointment) :=
  groupLoop (sortAppointmentsByTime appointments) [] []

/-- State-passing view of one `getOverlappingAppointments` call: the pair
(returned groups, contents of the array of the caller after the call).  The
function only reads its argument (the sort works on the spread copy), so
the array of the caller is unchanged. -/
def getOverlappingAppointmentsCall (appointments : List Appointment) :
    List (List Appointment) × List Appointment :=
  (getOverlappingAppointments appointments, appointments)

/-! ## Concrete data used by the literal cases of the claims -/

/-- Shorthand constructor for a `DateTime` (JS 0-based month). -/
def dt (y mo d h mi : Nat) : DateTime := ⟨y, mo, d, h, mi⟩

/-- A sample doctor record. -/
def drDemo : Doctor :=
  ⟨"d1", "Smith", "cardiology", "smith@clinic.test", "555-0100", []⟩

/-- A sample patient record. -/
def patDemo : Patient :=
  ⟨"p1", "Jones", "jones@mail.test", "555-0101", "1990-01-01"⟩

/-- Shorthand constructor for a plain appointment of doctor `d1`. -/
def mkApt (i : String) (s e : DateTime) : Appointment :=
  ⟨i, "p1", "d1", "checkup", s, e, none, "scheduled"⟩

/-- Shorthand constructor for a populated appointment. -/
def mkPopApt (i : String) (s e : DateTime) : PopulatedAppointment :=
  { mkApt i s e with doctor := drDemo, patient := patDemo }

/-- A 9:00 to 9:30 appointment on 2024-10-14. -/
def apt0900to0930 : PopulatedAppointment :=
  mkPopApt "a1" (dt 2024 9 14 9 0) (dt 2024 9 14 9 30)

/-- The 9:30 to 10:00 display slot of 2024-10-14. -/
def slot0930to1000 : TimeSlot :=
  ⟨dt 2024 9 14 9 30, dt 2024 9 14 10 0, "9:30 AM"⟩

/-- Appointment A of the section 4.4 example: 9:00 to 10:00. -/
def aptA : Appointment := mkApt "A" (dt 2024 9 14 9 0) (dt 2024 9 14 10 0)

/-- Appointment B of the section 4.4 example: 9:15 to 9:45 (nested in A). -/
def aptB : Appointment := mkApt "B" (dt 2024 9 14 9 15) (dt 2024 9 14 9 45)

/-- Appointment C of the section 4.4 example: 9:50 to 10:15 (overlaps A,
not B). -/
def aptC : Appointment := mkApt "C" (dt 2024 9 14 9 50) (dt 2024 9 14 10 15)

/-- An appointment of doctor `doc` starting 2024-10-20T23:59. -/
def aptLateSunday : Appointment :=
  { mkApt "w1" (dt 2024 9 20 23 59) (dt 2024 9 21 0 29) with doctorId := "doc" }

/-- An appointment of doctor `doc` starting 2024-10-21T00:00. -/
def aptNextMonday : Appointment :=
  { mkApt "w2" (dt 2024 9 21 0 0) (dt 2024 9 21 0 30) with doctorId := "doc" }

/-- The day 2024-10-14 (start of the example week). -/
def day1014 : DateTime := dt 2024 9 14 0 0

/-- The day 2024-10-21 (exclusive end of the example week). -/
def day1021 : DateTime := dt 2024 9 21 0 0

/-- A 60-minute populated appointment (10:00 to 11:00). -/
def apt60min : PopulatedAppointment :=
  mkPopApt "h1" (dt 2024 9 14 10 0) (dt 2024 9 14 11 0)

/-- A malformed populated appointment whose end (9:00) precedes its start
(9:30). -/
def aptBackwards : PopulatedAppointment :=
  mkPopApt "h2" (dt 2024 9 14 9 30) (dt 2024 9 14 9 0)

/-! ## Helper lemmas -/

theorem spreadCopy_go (l acc : List Appointment) :
    l.foldl (fun acc a => acc ++ [a]) acc = acc ++ l := by
  induction l generalizing acc with
  | nil => simp
  | cons a l ih => simp [List.foldl_cons, ih]

/-- The spread `[...appointments]` copies the list element-wise. -/
theorem spreadCopy_eq (l : List Appointment) : spreadCopy l = l := by
  simpa using spreadCopy_go l []

theorem sortAppointmentsByTime_perm (l : List Appointment) :
    (sortAppointmentsByTime l).Perm l := by
  unfold sortAppointmentsByTime
  rw [spreadCopy_eq]
  exact List.perm_insertionSort _ _

theorem sortAppointmentsByTime_sorted (l : List Appointment) :
    List.Sorted startLE (sortAppointmentsByTime l) :=
  List.sorted_insertionSort _ _

/-- The grouping pass neither drops nor duplicates appointments: the
concatenation of its output extends the already-emitted groups by the
open group and the still-pending input. -/
theorem groupLoop_join (pending : List Appointment) :
    ∀ (overlaps : List (List Appointment)) (current : List Appointment),
      (groupLoop pending overlaps current).flatten = overlaps.flatten ++ (current ++ pending) := by
  induction pending with
  | nil =>
    intro overlaps current
    by_cases hc : current = [] <;> simp [groupLoop, hc]
  | cons apt rest ih =>
    intro overlaps current
    rw [groupLoop]
    cases hl : current.getLast? with
    | none =>
      have hc : current = [] := by
        simpa using List.getLast?_eq_none_iff.mp hl
      subst hc
      rw [ih]
      simp
    | some lastApt =>
      dsimp only
      by_cases hlt : apt.startTime.epochMin < lastApt.endTime.epochMin
      · rw [if_pos hlt, ih]
        simp
      · rw [if_neg hlt, ih]
        simp

/-- Comparison of two groups by the start time of their first
appointments (trivially true for an empty group). -/
def headStartLE (g₁ g₂ : List Appointment) : Prop :=
  ∀ a₁ ∈ g₁.head?, ∀ a₂ ∈ g₂.head?, startLE a₁ a₂

/-- Invariant of the grouping loop: if the open group followed by the
pending input is sorted, the emitted groups are non-empty, pairwise
ordered by first start, and their heads start no later than anything
still open or pending, then the final output consists of non-empty
groups pairwise ordered by first start. -/
theorem groupLoop_groups (pending : List Appointment) :
    ∀ (overlaps : List (List Appointment)) (current : List Appointment),
      List.Sorted startLE (current ++ pending) →
      (∀ g ∈ overlaps, g ≠ []) →
      List.Pairwise headStartLE overlaps →
      (∀ g ∈ overlaps, ∀ a ∈ g.head?, ∀ b ∈ current ++ pending, startLE a b) →
      (∀ g ∈ groupLoop pending overlaps current, g ≠ []) ∧
      List.Pairwise headStartLE (groupLoop pending overlaps current) := by
  induction pending with
  | nil =>
    intro overlaps current hsort hne hpw hhead
    by_cases hc : current = []
    · simpa [groupLoop, hc] using ⟨hne, hpw⟩
    · rw [groupLoop, if_neg (by simpa [List.isEmpty_iff] using hc)]
      refine ⟨?_, ?_⟩
      · intro g hg
        rcases List.mem_append.mp hg with h | h
        · exact hne g h
        · simpa using (List.mem_singleton.mp h) ▸ hc
      · rw [List.pairwise_append]
        refine ⟨hpw, by simp [List.pairwise_singleton], ?_⟩
        intro g hg c hc'
        rw [List.mem_singleton.mp hc']
        intro a ha b hb
        exact hhead g hg a ha b (by simpa using List.mem_of_mem_head? hb)
  | cons apt rest ih =>
    intro overlaps current hsort hne hpw hhead
    rw [groupLoop]
    cases hl : current.getLast? with
    | none =>
      have hc : current = [] := List.getLast?_eq_none_iff.mp hl
      subst hc
      exact ih overlaps [apt] (by simpa using hsort) hne hpw (by simpa using hhead)
    | some lastApt =>
      have hcne : current ≠ [] := by
        intro h
        rw [h] at hl
        simp at hl
      have hsort' : List.Sorted startLE (current ++ (apt :: rest)) := hsort
      have hsplit := List.pairwise_append.mp hsort'
      dsimp only
      by_cases hlt : apt.startTime.epochMin < lastApt.endTime.epochMin
      · rw [if_pos hlt]
        refine ih overlaps (current ++ [apt]) ?_ hne hpw ?_
        · simpa [List.append_assoc] using hsort
        · intro g hg a ha b hb
          refine hhead g hg a ha b ?_
          simpa [List.append_assoc] using hb
      · rw [if_neg hlt]
        refine ih (overlaps ++ [current]) [apt] ?_ ?_ ?_ ?_
        · simpa using hsplit.2.1
        · intro g hg
          rcases List.mem_append.mp hg with h | h
          · exact hne g h
          · exact (List.mem_singleton.mp h) ▸ hcne
        · rw [List.pairwise_append]
          refine ⟨hpw, by simp [List.pairwise_singleton], ?_⟩
          intro g hg c hc'
          rw [List.mem_singleton.mp hc']
          intro a ha b hb
          exact hhead g hg a ha b
            (List.mem_append_left _ (List.mem_of_mem_head? hb))
        · intro g hg a ha b hb
          have hb' : b ∈ apt :: rest := by simpa using hb
          rcases List.mem_append.mp hg with h | h
          · exact hhead g h a ha b (List.mem_append_right _ hb')
          · rw [List.mem_singleton.mp h] at ha
            exact hsplit.2.2 a (List.mem_of_mem_head? ha) b hb'

/-- Disjointness-plus-order of two slots: the first ends no later than
the second starts, and starts strictly earlier. -/
def slotDisjoint (a b : TimeSlot) : Prop :=
  a.stop.epochMin ≤ b.start.epochMin ∧ a.start.epochMin < b.start.epochMin

instance : IsTrans TimeSlot slotDisjoint :=
  ⟨fun _ _ _ h₁ h₂ => ⟨Nat.le_trans h₁.1 (Nat.le_of_lt h₂.2), Nat.lt_trans h₁.2 h₂.2⟩⟩

/-- Adjacency relation produced by the slot generator: contiguous ends
and strictly increasing starts. -/
def slotAdj (a b : TimeSlot) : Prop :=
  a.stop = b.start ∧ a.start.epochMin < b.start.epochMin

theorem epochMin_setHours (t : DateTime) (h m : Nat) :
    (setHours t h m).epochMin =
      (daysBeforeYear t.year + daysBeforeMonth t.month (isLeapYear t.year) + (t.day - 1)) * 1440
        + h * 60 + m := rfl

theorem epochMin_setHours_lt (t : DateTime) {h m h' m' : Nat}
    (hlt : h * 60 + m < h' * 60 + m') :
    (setHours t h m).epochMin < (setHours t h' m').epochMin := by
  rw [epochMin_setHours, epochMin_setHours]
  omega

theorem windowSlots_length (date : DateTime) :
    ∀ (n s : Nat), (windowSlots date s n).length = 2 * n := by
  intro n
  induction n with
  | zero => intro s; rfl
  | succ n ih =>
    intro s
    simp [windowSlots, slotsForHour, ih]
    omega

theorem windowSlots_head? (date : DateTime) (n s : Nat) :
    (windowSlots date s (n + 1)).head? =
      some ⟨setHours date s 0, setHours date s 30, formatLabel (setHours date s 0)⟩ := rfl

theorem windowSlots_getLast? (date : DateTime) :
    ∀ (n s : Nat), (windowSlots date s (n + 1)).getLast? =
      some ⟨setHours date (s + n) 30, setHours date (s + n + 1) 0,
            formatLabel (setHours date (s + n) 30)⟩ := by
  intro n
  induction n with
  | zero => intro s; rfl
  | succ n ih =>
    intro s
    rw [windowSlots, List.getLast?_append_of_ne_nil]
    · rw [ih (s + 1)]
      have h1 : s + 1 + n = s + (n + 1) := by omega
      rw [h1]
    · intro h
      have := windowSlots_length date (n + 1) (s + 1)
      rw [h] at this
      simp at this

theorem windowSlots_chain' (date : DateTime) :
    ∀ (n s : Nat), List.Chain' slotAdj (windowSlots date s n) := by
  intro n
  induction n with
  | zero => intro s; simp [windowSlots]
  | succ n ih =>
    intro s
    rw [windowSlots]
    cases n with
    | zero =>
      simp only [windowSlots, List.append_nil, slotsForHour]
      refine List.chain'_cons.mpr ⟨⟨rfl, ?_⟩, List.chain'_singleton _⟩
      exact epochMin_setHours_lt date (by omega)
    | succ m =>
      rw [List.chain'_append]
      refine ⟨?_, ih (s + 1), ?_⟩
      · refine List.chain'_cons.mpr ⟨⟨rfl, ?_⟩, List.chain'_singleton _⟩
        exact epochMin_setHours_lt date (by omega)
      · intro x hx y hy
        rw [windowSlots_head? date m (s + 1)] at hy
        have hx' : x = ⟨setHours date s 30, setHours date (s + 1) 0,
            formatLabel (setHours date s 30)⟩ := by
          have := hx
          simp [slotsForHour] at this
          exact this.symm
        have hy' : y = ⟨setHours date (s + 1) 0, setHours date (s + 1) 30,
            formatLabel (setHours date (s + 1) 0)⟩ := by
          have := hy
          simp at this
          exact this.symm
        rw [hx', hy']
        exact ⟨rfl, epochMin_setHours_lt date (by omega)⟩

/-! ## Claims -/

/-- Claim C1: for every appointment A of the input and every time slot S,
A is in `getAppointmentsForSlot(S, appointments)` if and only if
`A.start ≤ S.end` and `A.end ≥ S.start`, both boundaries inclusive; in
particular an appointment running 9:00 to 9:30 is included in the slot
9:30 to 10:00. -/
theorem slot_membership_inclusive :
    (∀ (slot : TimeSlot) (appointments : List PopulatedAppointment)
        (A : PopulatedAppointment), A ∈ appointments →
        (A ∈ getAppointmentsForSlot slot appointments ↔
          A.startTime.epochMin ≤ slot.stop.epochMin ∧
          slot.start.epochMin ≤ A.endTime.epochMin)) ∧
    apt0900to0930 ∈ getAppointmentsForSlot slot0930to1000 [apt0900to0930] := by
  constructor
  · intro slot appointments A hA
    simp [getAppointmentsForSlot, List.mem_filter, hA]
  · decide

theorem slot_membership_inclusive_witness :
    apt0900to0930 ∈ getAppointmentsForSlot slot0930to1000 [apt0900to0930] ↔
      apt0900to0930.startTime.epochMin ≤ slot0930to1000.stop.epochMin ∧
      slot0930to1000.start.epochMin ≤ apt0900to0930.endTime.epochMin :=
  slot_membership_inclusive.1 slot0930to1000 [apt0900to0930] apt0900to0930
    (List.mem_singleton.mpr rfl)

/-- Claim C2: the grouping loop extends the current group exactly when
the incoming start is strictly before the end of the last appointment
added to that group (not the running maximum end of the group); on
[A: 9:00 to 10:00, B: 9:15 to 9:45, C: 9:50 to 10:15] it therefore
returns the two groups [A, B] and [C]. -/
theorem grouping_compares_last_added :
    (∀ (apt : Appointment) (rest : List Appointment)
        (overlaps : List (List Appointment)) (current : List Appointment)
        (lastApt : Appointment), current.getLast? = some lastApt →
        groupLoop (apt :: rest) overlaps current =
          if apt.startTime.epochMin < lastApt.endTime.epochMin then
            groupLoop rest overlaps (current ++ [apt])
          else
            groupLoop rest (overlaps ++ [current]) [apt]) ∧
    getOverlappingAppointments [aptA, aptB, aptC] = [[aptA, aptB], [aptC]] := by
  constructor
  · intro apt rest overlaps current lastApt h
    rw [groupLoop, h]
  · decide

theorem grouping_compares_last_added_witness :
    groupLoop [aptC] [] [aptA, aptB] =
      if aptC.startTime.epochMin < aptB.endTime.epochMin then
        groupLoop [] [] ([aptA, aptB] ++ [aptC])
      else
        groupLoop [] ([] ++ [[aptA, aptB]]) [aptC] :=
  grouping_compares_last_added.1 aptC [] [] [aptA, aptB] aptB (by decide)

/-- Claim C3: the range filter returns exactly the appointments of the
given doctor whose start-of-day falls in the half-open interval
[startOfDay(startDate), startOfDay(endDate)); for the range 2024-10-14
to 2024-10-21 it includes an appointment starting 2024-10-20T23:59 and
excludes one starting 2024-10-21T00:00. -/
theorem range_filter_half_open :
    (∀ (appointments : List Appointment) (doctorId : String)
        (startDate endDate : DateTime) (A : Appointment), A ∈ appointments →
        (A ∈ getAppointmentsByDoctorAndDateRange appointments doctorId startDate endDate ↔
          A.doctorId = doctorId ∧
          (startOfDay startDate).epochMin ≤ (startOfDay A.startTime).epochMin ∧
          (startOfDay A.startTime).epochMin < (startOfDay endDate).epochMin)) ∧
    aptLateSunday ∈ getAppointmentsByDoctorAndDateRange
      [aptLateSunday, aptNextMonday] "doc" day1014 day1021 ∧
    aptNextMonday ∉ getAppointmentsByDoctorAndDateRange
      [aptLateSunday, aptNextMonday] "doc" day1014 day1021 := by
  refine ⟨?_, by decide, by decide⟩
  intro appointments doctorId startDate endDate A hA
  simp [getAppointmentsByDoctorAndDateRange, List.mem_filter, hA, and_assoc]

theorem range_filter_half_open_witness :
    aptLateSunday ∈ getAppointmentsByDoctorAndDateRange
        [aptLateSunday, aptNextMonday] "doc" day1014 day1021 ↔
      aptLateSunday.doctorId = "doc" ∧
      (startOfDay day1014).epochMin ≤ (startOfDay aptLateSunday.startTime).epochMin ∧
      (startOfDay aptLateSunday.startTime).epochMin < (startOfDay day1021).epochMin :=
  range_filter_half_open.1 [aptLateSunday, aptNextMonday] "doc" day1014 day1021
    aptLateSunday (by decide)

/-- Claim C6: the single-day filter returns exactly the appointments of
the given doctor whose start (year, month, day-of-month) triple equals
the target day, compared field-wise on the local calendar fields; empty
input yields an empty list, never an error. -/
theorem day_filter_matches_triple :
    (∀ (appointments : List Appointment) (doctorId : String) (date : DateTime)
        (A : Appointment), A ∈ appointments →
        (A ∈ getAppointmentsByDoctorAndDate appointments doctorId date ↔
          A.doctorId = doctorId ∧ A.startTime.year = date.year ∧
          A.startTime.month = date.month ∧ A.startTime.day = date.day)) ∧
    (∀ (doctorId : String) (date : DateTime),
        getAppointmentsByDoctorAndDate [] doctorId date = []) := by
  constructor
  · intro appointments doctorId date A hA
    simp [getAppointmentsByDoctorAndDate, List.mem_filter, hA, isSameDay, and_assoc]
  · intro _ _
    rfl

theorem day_filter_matches_triple_witness :
    aptA ∈ getAppointmentsByDoctorAndDate [aptA] "d1" day1014 ↔
      aptA.doctorId = "d1" ∧ aptA.startTime.year = day1014.year ∧
      aptA.startTime.month = day1014.month ∧ aptA.startTime.day = day1014.day :=
  day_filter_matches_triple.1 [aptA] "d1" day1014 aptA (by decide)

/-- Claim C7: for an appointment whose end is not before its start, the
rendered size is (durationMinutes / 30) × 40 with durationMinutes the
difference of end and start in minutes (and is then non-negative); a
60-minute appointment yields 80. -/
theorem card_height_formula (apt : PopulatedAppointment)
    (h : apt.startTime.epochMin ≤ apt.endTime.epochMin) :
    cardHeight apt =
        ((apt.endTime.epochMin : ℚ) - (apt.startTime.epochMin : ℚ)) / 30 * 40 ∧
    0 ≤ cardHeight apt ∧
    cardHeight apt60min = 80 := by
  refine ⟨rfl, ?_, ?_⟩
  · have hd : 0 ≤ durationMinutes apt := by
      unfold durationMinutes
      rw [sub_nonneg]
      exact_mod_cast h
    unfold cardHeight
    have h1 : (0 : ℚ) ≤ durationMinutes apt / 30 := by positivity
    positivity
  · norm_num [cardHeight, durationMinutes, apt60min, mkPopApt, mkApt, dt,
      DateTime.epochMin]

theorem card_height_formula_witness :
    cardHeight apt60min =
        ((apt60min.endTime.epochMin : ℚ) - (apt60min.startTime.epochMin : ℚ)) / 30 * 40 ∧
    0 ≤ cardHeight apt60min ∧
    cardHeight apt60min = 80 :=
  card_height_formula apt60min (by decide)

/-- Claim C8 (amended): the sizing computation in `AppointmentCard`
never signals an error; it is total, returns a non-negative number when
end is not before start, and returns a negative number (rather than an
`InvalidDuration` failure) when end precedes start. -/
theorem card_height_total_sign (apt : PopulatedAppointment) :
    (apt.startTime.epochMin ≤ apt.endTime.epochMin → 0 ≤ cardHeight apt) ∧
    (apt.endTime.epochMin < apt.startTime.epochMin → cardHeight apt < 0) := by
  constructor
  · intro h
    have hd : 0 ≤ durationMinutes apt := by
      unfold durationMinutes
      rw [sub_nonneg]
      exact_mod_cast h
    unfold cardHeight
    positivity
  · intro h
    have hd : durationMinutes apt < 0 := by
      unfold durationMinutes
      rw [sub_neg]
      exact_mod_cast h
    unfold cardHeight
    have h1 : durationMinutes apt / 30 < 0 := div_neg_of_neg_of_pos hd (by norm_num)
    exact mul_neg_of_neg_of_pos h1 (by norm_num)

theorem card_height_total_sign_witness : cardHeight aptBackwards < 0 :=
  (card_height_total_sign aptBackwards).2 (by decide)

/-- Claim C8, counterexample to the claim as stated: on an appointment
whose end (9:00) precedes its start (9:30) the code does not fail with
`InvalidDuration` — it returns the number -40. -/
theorem card_height_no_failure :
    aptBackwards.endTime.epochMin < aptBackwards.startTime.epochMin ∧
    cardHeight aptBackwards = -40 := by
  constructor
  · decide
  · norm_num [cardHeight, durationMinutes, aptBackwards, mkPopApt, mkApt, dt,
      DateTime.epochMin]

/-- Claim C9: enrichment returns `none` exactly when the referenced
doctor or patient cannot be resolved by id; when both resolve it returns
the appointment joined with the resolved records, the original
appointment fields unchanged. -/
theorem populate_absent_iff_unresolved (doctors : List Doctor)
    (patients : List Patient) (appointment : Appointment) :
    (getPopulatedAppointment doctors patients appointment = none ↔
      getDoctorById doctors appointment.doctorId = none ∨
      getPatientById patients appointment.patientId = none) ∧
    (∀ pa, getPopulatedAppointment doctors patients appointment = some pa →
      pa.toAppointment = appointment ∧
      getDoctorById doctors appointment.doctorId = some pa.doctor ∧
      getPatientById patients appointment.patientId = some pa.patient) := by
  unfold getPopulatedAppointment
  cases hd : getDoctorById doctors appointment.doctorId with
  | none => simp
  | some d =>
    cases hp : getPatientById patients appointment.patientId with
    | none => simp
    | some p =>
      refine ⟨by simp, ?_⟩
      intro pa h
      have hpa : pa = ⟨appointment, d, p⟩ := by
        simpa using h.symm
      subst hpa
      exact ⟨rfl, rfl, rfl⟩

/-- The enrichment of `aptA` against the demo store. -/
def popAptA : PopulatedAppointment :=
  { toAppointment := aptA, doctor := drDemo, patient := patDemo }

theorem populate_absent_iff_unresolved_witness :
    popAptA.toAppointment = aptA ∧
    getDoctorById [drDemo] aptA.doctorId = some popAptA.doctor ∧
    getPatientById [patDemo] aptA.patientId = some popAptA.patient :=
  (populate_absent_iff_unresolved [drDemo] [patDemo] aptA).2 popAptA rfl

/-- Claim C10: `sortAppointmentsByTime` leaves the contents of the array
it is given unchanged — the spread copies the list element-wise and the
in-place sort is applied to the copy — and the sorted result is a
permutation of the input; consequently `getOverlappingAppointments`,
which sorts through this helper, also leaves its argument unchanged. -/
theorem sort_does_not_mutate_input (l : List Appointment) :
    spreadCopy l = l ∧
    (sortAppointmentsByTimeCall l).2 = l ∧
    (getOverlappingAppointmentsCall l).2 = l ∧
    (sortAppointmentsByTimeCall l).1.Perm l :=
  ⟨spreadCopy_eq l, rfl, rfl, sortAppointmentsByTime_perm l⟩

/-- Claim C4: for every reference day and every hour window with
startHour < endHour (the source fixes 8 and 18, with the 30-minute slot
width built into the loop), the generator returns
(endHour − startHour) × 60 / 30 slots that are contiguous (each slot
ends where the next starts), pairwise non-overlapping and ordered by
start time, the first starting at startHour:00 and the last ending at
endHour:00; the fixed 8-to-18 configuration yields 20 slots. -/
theorem generate_slots_window_shape (date : DateTime) (s e : Nat) (h : s < e) :
    (generateTimeSlotsWindow date s e).length = (e - s) * 60 / 30 ∧
    List.Chain' (fun a b => a.stop = b.start) (generateTimeSlotsWindow date s e) ∧
    List.Pairwise slotDisjoint (generateTimeSlotsWindow date s e) ∧
    ((generateTimeSlotsWindow date s e).map TimeSlot.start).head? =
      some (setHours date s 0) ∧
    ((generateTimeSlotsWindow date s e).map TimeSlot.stop).getLast? =
      some (setHours date e 0) ∧
    generateTimeSlots date = generateTimeSlotsWindow date 8 18 ∧
    (generateTimeSlots date).length = 20 := by
  obtain ⟨n, hn⟩ : ∃ n, e - s = n + 1 := ⟨e - s - 1, by omega⟩
  unfold generateTimeSlotsWindow
  rw [hn]
  refine ⟨?_, ?_, ?_, ?_, ?_, rfl, ?_⟩
  · rw [windowSlots_length]
    omega
  · exact (windowSlots_chain' date (n + 1) s).imp fun a b hab => hab.1
  · have hc : List.Chain' slotDisjoint (windowSlots date s (n + 1)) :=
      (windowSlots_chain' date (n + 1) s).imp fun a b hab =>
        ⟨le_of_eq (congrArg DateTime.epochMin hab.1), hab.2⟩
    exact List.chain'_iff_pairwise.mp hc
  · rw [List.head?_map, windowSlots_head?]
    rfl
  · rw [List.getLast?_map, windowSlots_getLast? date n s]
    have he : s + n + 1 = e := by omega
    rw [he]
    rfl
  · simp [generateTimeSlots, generateTimeSlotsWindow, windowSlots_length]

theorem generate_slots_window_shape_witness :
    (generateTimeSlotsWindow day1014 8 18).length = (18 - 8) * 60 / 30 ∧
    List.Chain' (fun a b => a.stop = b.start) (generateTimeSlotsWindow day1014 8 18) ∧
    List.Pairwise slotDisjoint (generateTimeSlotsWindow day1014 8 18) ∧
    ((generateTimeSlotsWindow day1014 8 18).map TimeSlot.start).head? =
      some (setHours day1014 8 0) ∧
    ((generateTimeSlotsWindow day1014 8 18).map TimeSlot.stop).getLast? =
      some (setHours day1014 18 0) ∧
    generateTimeSlots day1014 = generateTimeSlotsWindow day1014 8 18 ∧
    (generateTimeSlots day1014).length = 20 :=
  generate_slots_window_shape day1014 8 18 (by decide)

/-- Claim C5: `getOverlappingAppointments` sorts its input internally
(no precondition on the caller), every input appointment lands in
exactly one output group (the concatenation of the groups is a
permutation of the input and no group is empty), and the groups are
emitted in ascending order of the start time of their first
appointment. -/
theorem grouping_partitions_input (l : List Appointment) :
    (getOverlappingAppointments l).flatten.Perm l ∧
    (∀ g ∈ getOverlappingAppointments l, g ≠ []) ∧
    List.Pairwise headStartLE (getOverlappingAppointments l) := by
  have hinv := groupLoop_groups (sortAppointmentsByTime l) [] []
    (by simpa using sortAppointmentsByTime_sorted l)
    (by simp) (by simp) (by simp)
  refine ⟨?_, hinv.1, hinv.2⟩
  show (groupLoop (sortAppointmentsByTime l) [] []).flatten.Perm l
  rw [groupLoop_join]
  simpa using sortAppointmentsByTime_perm l

theorem grouping_partitions_input_witness :
    (getOverlappingAppointments [aptA]).flatten.Perm [aptA] :=
  (grouping_partitions_input [aptA]).1

end Sched
